import Mathlib

/-!
Verification of the cgroup hierarchy resolver and stat-file parsers.

A shallow embedding of the `cgroup` package of the systemd exporter:
the mount-mode classifier (`cgUnifiedCached`), the controller path
resolver (`FS.cgGetPath`), the override-string parser
(`ControlGroupModeString`), the unified `cpu.stat` reader
(`FS.NewCPUStat`) and the usage facade (`NewCPUUsage`), together with
theorems settling the claims of the specification about them.

Go strings are modelled as Lean `String`, machine `uint64` values as
`Nat` with an explicit `< 2 ^ 64` bound enforced by the numeric parser,
fallible operations as `Except`/`Option`, and the `statfs`/`stat`/file
I/O surface as explicit function-valued environments.
-/

namespace SystemdExporter

instance {ε α : Type} [DecidableEq ε] [DecidableEq α] : DecidableEq (Except ε α) := fun a b =>
  match a, b with
  | .error e, .error f => decidable_of_iff (e = f) (by simp)
  | .error _, .ok _ => .isFalse (by simp)
  | .ok _, .error _ => .isFalse (by simp)
  | .ok x, .ok y => decidable_of_iff (x = y) (by simp)

/-! ## String helpers (Go standard library fragments used by the code) -/

/-- Splits a list of characters at every occurrence of the separator
character; the embedding of Go `strings.Split` with a one-character
separator (also the split step of `bufio.ScanLines`).  Always returns a
non-empty list; separators at the ends produce empty fields. -/
def splitOnChar (c : Char) : List Char → List (List Char)
  | [] => [[]]
  | x :: xs =>
    match splitOnChar c xs with
    | [] => [[x]]
    | y :: ys => if x = c then [] :: y :: ys else (x :: y) :: ys

/-- Helper fact: `splitOnChar` never returns the empty list. -/
theorem splitOnChar_ne_nil (c : Char) (l : List Char) : splitOnChar c l ≠ [] := by
  cases l with
  | nil => simp [splitOnChar]
  | cons x xs =>
    simp only [splitOnChar]
    cases splitOnChar c xs with
    | nil => simp
    | cons y ys =>
      by_cases h : x = c <;> simp [h]

/-- Embedding of Go `strings.Split(s, " ")`. -/
def goSplitOnSpace (s : String) : List String :=
  (splitOnChar ' ' s.data).map String.mk

/-- Embedding of the `dropCR` step of Go `bufio.ScanLines`: removes one
trailing carriage return. -/
def dropCR (l : List Char) : List Char :=
  if l.getLast? = some '\r' then l.dropLast else l

/-- Embedding of the token stream produced by a Go `bufio.Scanner` with
the default `ScanLines` split function: the input is cut at every
newline, a carriage return preceding a newline (or ending the input) is
dropped, the final fragment is returned even without a trailing newline,
and a trailing newline does not produce an extra empty token (an empty
input produces no token at all). -/
def goScanLines (s : String) : List String :=
  let parts := splitOnChar '\n' s.data
  let parts := if parts.getLast? = some [] then parts.dropLast else parts
  parts.map (fun l => String.mk (dropCR l))

/-- ASCII-range embedding of Go `strings.ToLower` for a single
character (the general Go function applies the Unicode lowercase
mapping per rune; on the ASCII letters relevant to the mode names the
two coincide, and no character is mapped onto an uppercase ASCII
letter by either). -/
def goCharToLower (c : Char) : Char :=
  if 65 ≤ c.toNat ∧ c.toNat ≤ 90 then Char.ofNat (c.toNat + 32) else c

/-- Embedding of Go `strings.ToLower` (ASCII fragment, see
`goCharToLower`). -/
def goToLower (s : String) : String :=
  String.mk (s.data.map goCharToLower)

/-! ## Lexical path cleaning (Go `path/filepath`) -/

/-- One step of the component stack evolution performed by Go
`filepath.Clean` on a slash-separated path: empty components and `.`
are dropped; `..` pops the latest real component, is kept when nothing
can be popped on a relative path, and is dropped at the root of an
absolute path; everything else is pushed.  The stack holds the
components in reverse order. -/
def cleanStep (rooted : Bool) (stack : List String) (part : String) : List String :=
  if part = "" ∨ part = "." then stack
  else if part = ".." then
    match stack with
    | [] => if rooted then [] else [".."]
    | p :: rest => if p = ".." then ".." :: p :: rest else rest
  else part :: stack

/-- Embedding of Go `filepath.Clean` (forward-slash separator): purely
lexical normalisation replacing runs of separators, eliminating `.` and
resolving `..` components, returning `.` for an empty result. -/
def goClean (path : String) : String :=
  if path = "" then "."
  else
    let rooted := match path.data with
      | '/' :: _ => true
      | _ => false
    let comps := ((splitOnChar '/' path.data).map String.mk).foldl (cleanStep rooted) []
    let out := (if rooted then "/" else "") ++ String.intercalate "/" comps.reverse
    if out = "" then "." else out

/-- Embedding of Go `filepath.Join`: elements before the first
non-empty one are skipped, the rest are joined with `/` and the result
is cleaned.  All-empty input yields the empty string. -/
def goJoin : List String → String
  | [] => ""
  | e :: rest => if e = "" then goJoin rest else goClean (String.intercalate "/" (e :: rest))

/-! ## Unsigned decimal parsing (Go `strconv.ParseUint(s, 10, 64)`) -/

/-- Embedding of Go `strconv.ParseUint(s, 10, 64)`: accepts exactly the
non-empty all-decimal-digit strings whose value fits in an unsigned
64-bit integer (no sign, no underscores, no other characters); rejects
everything else (`none` stands for a non-nil error). -/
def parseUint64 (s : String) : Option Nat :=
  if s.data = [] then none
  else if s.data.all (fun c => 48 ≤ c.toNat ∧ c.toNat ≤ 57) then
    let n := s.data.foldl (fun acc c => acc * 10 + (c.toNat - 48)) 0
    if n < 2 ^ 64 then some n else none
  else none

/-! ## Mount-mode classifier (`cgroup.go`) -/

/-- The four mount layouts systemd distinguishes under `/sys/fs/cgroup`
(`MountMode` in `cgroup.go`). -/
inductive MountMode where
  | MountModeUnknown
  | MountModeLegacy
  | MountModeHybrid
  | MountModeUnified
deriving DecidableEq

/-- The operator-requested detection mode (`ControlGroupMode` in
`controlgroupmode.go`): `Auto` means probe the filesystem, the rest are
explicit overrides. -/
inductive ControlGroupMode where
  | Auto
  | Legacy
  | Hybrid
  | UnifiedV232
  | Unified
deriving DecidableEq

/-- Common mount point of the cgroupfs filesystem. -/
def DefaultMountPoint : String := "/sys/fs/cgroup"

def UnifiedMountPoint : String := "/sys/fs/cgroup/unified"

def SystemdMountPoint : String := "/sys/fs/cgroup/systemd"

/-- Magic number of the in-memory tmpfs filesystem (`linux/magic.h`). -/
def tmpFsMagic : Nat := 0x01021994

/-- cgroup v1 filesystem magic number. -/
def cgroupSuperMagic : Nat := 0x27e0eb

/-- cgroup v2 filesystem magic number. -/
def cgroup2SuperMagic : Nat := 0x63677270

/-- Embedding of `prefixMountPoint`: joins the optional relocation
root with a well-known mount point (empty root means none). -/
def prependMountPoint (pfx : String) (mountPoint : String) : String :=
  if 0 < pfx.length then goJoin [pfx, mountPoint] else mountPoint

/-- The errors `cgUnifiedCached` and its callers can produce; each
constructor stands for one `errors.Errorf`/`errors.Wrapf` site. -/
inductive CgErr where
  /-- Error text `failed statfs(path)` -/
  | statfsFailed (path : String)
  /-- Error text `unknown magic number .. for fstype returned by statfs(path)` -/
  | unknownMagic (magic : Nat) (path : String)
  /-- Error text `unknown control group mode ..` -/
  | unknownMode (mode : ControlGroupMode)
  /-- Error text `could not determine cgroupfs mount mode` (`NewDefaultFS`) -/
  | classifyFailed
  /-- Error text `could not read mountPoint` (`checkMountPath`) -/
  | statError (path : String)
  /-- Error text `mount point .. is not a directory` (`checkMountPath`) -/
  | notADirectory (path : String)
  /-- Error text `Cannot determine path with unknown mounting hierarchy` (`cgGetPath`) -/
  | unknownHierarchy
  /-- Error text `unable to read file path` (`ReadFileNoStat` failure) -/
  | readFailed (path : String)
  /-- Error text `unable to scan file` (empty input to the `cpu.stat` reader) -/
  | scanFailed
  /-- Error text `unable to parse contents of file` (a line that does not split
  into exactly two space-separated tokens) -/
  | parseLineFailed (line : String)
  /-- Error text `unable to parse .. as uint64` -/
  | parseValueFailed (token : String)
deriving DecidableEq

/-- The quadruple returned by `cgUnifiedCached`:
`(MountMode, unifiedPath, legacyPath, error)`. -/
structure CgOut where
  mode : MountMode
  unifiedPath : String
  legacyPath : String
  err : Option CgErr
deriving DecidableEq

/-- Embedding of `cgUnifiedCached`, instrumented with the ordered list
of paths passed to `statfsFunc` (the filesystem-type probe is the
injectable `statfsFn`; `none` stands for a failing `unix.Statfs` call,
`some t` for success filling in filesystem type `t`).  The explicit
override arms return before any probe; in `Auto` mode the default root
is probed (twice, as in the source), a `tmpfs` answer triggers the
probe of the unified sibling and then, unless that sibling reported
the cgroup-v2 magic, of the systemd sibling. -/
def cgUnifiedCachedT (mode : ControlGroupMode) (pfx : String)
    (statfsFn : String → Option Nat) : CgOut × List String :=
  let defaultMountPoint := prependMountPoint pfx DefaultMountPoint
  let unifiedMountPoint := prependMountPoint pfx UnifiedMountPoint
  let systemdMountPoint := prependMountPoint pfx SystemdMountPoint
  match mode with
  | .Legacy => (⟨.MountModeLegacy, "", defaultMountPoint, none⟩, [])
  | .UnifiedV232 => (⟨.MountModeHybrid, unifiedMountPoint, systemdMountPoint, none⟩, [])
  | .Unified => (⟨.MountModeHybrid, defaultMountPoint, "", none⟩, [])
  | .Hybrid => (⟨.MountModeUnknown, "", "", some (.unknownMode .Hybrid)⟩, [])
  | .Auto =>
    match statfsFn defaultMountPoint with
    | none =>
      (⟨.MountModeUnknown, "", "", some (.statfsFailed defaultMountPoint)⟩, [defaultMountPoint])
    | some t1 =>
      if t1 = cgroup2SuperMagic then
        (⟨.MountModeUnified, defaultMountPoint, "", none⟩, [defaultMountPoint])
      else
        match statfsFn defaultMountPoint with
        | none =>
          (⟨.MountModeUnknown, "", "", some (.statfsFailed defaultMountPoint)⟩,
            [defaultMountPoint, defaultMountPoint])
        | some t2 =>
          if t2 = cgroup2SuperMagic then
            (⟨.MountModeUnified, defaultMountPoint, "", none⟩,
              [defaultMountPoint, defaultMountPoint])
          else if t2 = tmpFsMagic then
            let sysFallback : CgOut × List String :=
              match statfsFn systemdMountPoint with
              | none =>
                (⟨.MountModeUnknown, "", "", some (.statfsFailed systemdMountPoint)⟩,
                  [defaultMountPoint, defaultMountPoint, unifiedMountPoint, systemdMountPoint])
              | some ts =>
                if ts = cgroup2SuperMagic then
                  (⟨.MountModeHybrid, unifiedMountPoint, systemdMountPoint, none⟩,
                    [defaultMountPoint, defaultMountPoint, unifiedMountPoint, systemdMountPoint])
                else if ts = cgroupSuperMagic then
                  (⟨.MountModeLegacy, "", defaultMountPoint, none⟩,
                    [defaultMountPoint, defaultMountPoint, unifiedMountPoint, systemdMountPoint])
                else
                  (⟨.MountModeUnknown, "", "", some (.unknownMagic ts systemdMountPoint)⟩,
                    [defaultMountPoint, defaultMountPoint, unifiedMountPoint, systemdMountPoint])
            match statfsFn unifiedMountPoint with
            | some tu =>
              if tu = cgroup2SuperMagic then
                (⟨.MountModeHybrid, unifiedMountPoint, defaultMountPoint, none⟩,
                  [defaultMountPoint, defaultMountPoint, unifiedMountPoint])
              else sysFallback
            | none => sysFallback
          else
            (⟨.MountModeUnknown, "", "", some (.unknownMagic t2 defaultMountPoint)⟩,
              [defaultMountPoint, defaultMountPoint])

/-- The value returned by `cgUnifiedCached`. -/
def cgUnifiedCached (mode : ControlGroupMode) (pfx : String)
    (statfsFn : String → Option Nat) : CgOut :=
  (cgUnifiedCachedT mode pfx statfsFn).1

/-- The ordered list of paths `cgUnifiedCached` passes to the
filesystem-type probe. -/
def statfsCalls (mode : ControlGroupMode) (pfx : String)
    (statfsFn : String → Option Nat) : List String :=
  (cgUnifiedCachedT mode pfx statfsFn).2

/-! ## Controller path resolver (`FS.cgGetPath`) -/

/-- The cgroup pseudo-filesystem handle (`FS` in `cgroup.go`). -/
structure FS where
  cgroupUnified : MountMode
  unifiedPath : String
  legacyPath : String
deriving DecidableEq

/-- Embedding of `FS.cgGetPath`: the absolute path of `suffix` for
`controller` in the cgroup denoted by `subpath`, according to the
mount mode of the handle. -/
def FS.cgGetPath (fs : FS) (controller : String) (subpath : String) (suffix : String) :
    Except CgErr String :=
  match fs.cgroupUnified with
  | .MountModeUnknown => .error .unknownHierarchy
  | .MountModeLegacy => .ok (goJoin [fs.legacyPath, controller, subpath, suffix])
  | .MountModeHybrid =>
    if controller = "cpu" then .ok (goJoin [fs.unifiedPath, subpath, suffix])
    else .ok (goJoin [fs.legacyPath, controller, subpath, suffix])
  | .MountModeUnified => .ok (goJoin [fs.unifiedPath, subpath, suffix])

/-! ## Override-string parsing (`controlgroupmode.go`) -/

/-- The name-to-value map of `controlgroupmode.go` (the slices of
`_ControlGroupModeName` and `_ControlGroupModeLowerName`), as an
association list with the distinct keys of the map. -/
def _ControlGroupModeNameToValueMap : List (String × ControlGroupMode) :=
  [("Auto", .Auto), ("auto", .Auto),
   ("Legacy", .Legacy), ("legacy", .Legacy),
   ("Hybrid", .Hybrid), ("hybrid", .Hybrid),
   ("UnifiedV232", .UnifiedV232), ("unifiedv232", .UnifiedV232),
   ("Unified", .Unified), ("unified", .Unified)]

/-- Embedding of `ControlGroupModeString`: looks the string up in the
name-to-value map, then its lowercase form, and otherwise reports that
the string does not belong to the enumeration. -/
def ControlGroupModeString (s : String) : Except String ControlGroupMode :=
  match _ControlGroupModeNameToValueMap.lookup s with
  | some val => .ok val
  | none =>
    match _ControlGroupModeNameToValueMap.lookup (goToLower s) with
    | some val => .ok val
    | none => .error (s ++ " does not belong to ControlGroupMode values")

/-! ## Unified cpu.stat reader (`cpustat.go`) -/

/-- The aggregate CPU times of a unified `cpu.stat` file
(microseconds). -/
structure CPUStat where
  SystemMicrosec : Nat
  UserMicrosec : Nat
deriving DecidableEq

/-- The scanning loop of `FS.NewCPUStat` over the lines following the
first one: each line must split on a single space into exactly two
tokens whose second token parses as an unsigned 64-bit decimal; a
`user_usec` (resp. `system_usec`) key updates the user (resp. system)
accumulator, all other keys are ignored. -/
def cpuStatLoop : List String → Nat → Nat → Except CgErr (Nat × Nat)
  | [], user, sys => .ok (user, sys)
  | line :: rest, user, sys =>
    match goSplitOnSpace line with
    | [k, v] =>
      match parseUint64 v with
      | none => .error (.parseValueFailed v)
      | some val =>
        cpuStatLoop rest (if k = "user_usec" then val else user)
          (if k = "system_usec" then val else sys)
    | _ => .error (.parseLineFailed line)

/-- The content-level behaviour of `FS.NewCPUStat` on the token stream
of the scanner: no first token at all is a scan error, the first token
is consumed without inspection, the remaining tokens feed
`cpuStatLoop`, and a final state with both accumulators zero yields
the no-data result `none` instead of a record. -/
def newCPUStatFromLines : List String → Except CgErr (Option CPUStat)
  | [] => .error .scanFailed
  | _ :: rest =>
    match cpuStatLoop rest 0 0 with
    | .error e => .error e
    | .ok (user, sys) =>
      if user = 0 ∧ sys = 0 then .ok none
      else .ok (some ⟨sys, user⟩)

/-- Behaviour of `FS.NewCPUStat` as a function of the bytes read from the resolved
`cpu.stat` path. -/
def newCPUStatFromString (s : String) : Except CgErr (Option CPUStat) :=
  newCPUStatFromLines (goScanLines s)

/-- A `cpu.stat` line the scanning loop accepts: exactly two
space-separated tokens, the second a valid unsigned 64-bit decimal. -/
def wellFormedLine (line : String) : Bool :=
  match goSplitOnSpace line with
  | [_, v] => (parseUint64 v).isSome
  | _ => false

/-- The key and value tokens of a line that splits into exactly two. -/
def lineKeyVal (line : String) : Option (String × String) :=
  match goSplitOnSpace line with
  | [k, v] => some (k, v)
  | _ => none

/-! ## I/O environment and filesystem-handle construction -/

/-- The I/O surface the package touches, as explicit functions:
`statfs` is the filesystem-type probe (`unix.Statfs`), `stat` reports
whether a path can be stat-ed and is a directory (`os.Stat` followed
by `IsDir`), and `readFile` yields the bytes of a file
(`ReadFileNoStat`; `none` stands for any read error, including a
missing file). -/
structure Env where
  statfs : String → Option Nat
  stat : String → Option Bool
  readFile : String → Option String

/-- Embedding of `checkMountPath`: `some` error when the mount point
cannot be stat-ed or is not a directory. -/
def checkMountPath (env : Env) (mountPoint : String) : Option CgErr :=
  match env.stat mountPoint with
  | none => some (.statError mountPoint)
  | some isDir => if isDir then none else some (.notADirectory mountPoint)

/-- Embedding of `newFS`: validates the non-empty mount paths and
bundles the handle. -/
def newFS (env : Env) (mountMode : MountMode) (unifiedPath : String) (legacyPath : String) :
    Except CgErr FS :=
  match (if unifiedPath = "" then none else checkMountPath env unifiedPath) with
  | some e => .error e
  | none =>
    match (if legacyPath = "" then none else checkMountPath env legacyPath) with
    | some e => .error e
    | none => .ok ⟨mountMode, unifiedPath, legacyPath⟩

/-- Embedding of `NewDefaultFS`: classifies the hierarchy and builds
the handle, failing when classification errored or stayed unknown. -/
def NewDefaultFS (env : Env) (controlGroupMode : ControlGroupMode) (pfx : String) :
    Except CgErr FS :=
  let r := cgUnifiedCached controlGroupMode pfx env.statfs
  if r.err.isSome ∨ r.mode = .MountModeUnknown then .error .classifyFailed
  else newFS env r.mode r.unifiedPath r.legacyPath

/-- Embedding of `FS.NewCPUStat`: resolves the `cpu.stat` path for the
`cpu` controller, reads it, and parses the content. -/
def NewCPUStat (env : Env) (fs : FS) (cgSubpath : String) : Except CgErr (Option CPUStat) :=
  match fs.cgGetPath "cpu" cgSubpath "cpu.stat" with
  | .error e => .error e
  | .ok cgPath =>
    match env.readFile cgPath with
    | none => .error (.readFailed cgPath)
    | some b => newCPUStatFromString b

/-! ## CPU-accounting reader (modelled) and usage facade -/

/-- One per-CPU row of a `cpuacct.usage_all`-style file (nanosecond
resolution). -/
structure CPUUsage where
  CPUId : Nat
  UserNanosecs : Nat
  SystemNanosecs : Nat
deriving DecidableEq

/-- The per-CPU breakdown returned by the CPU-accounting reader. -/
structure CPUAcct where
  CPUs : List CPUUsage
deriving DecidableEq

/-- Modelled from the spec: one data row of the CPU-accounting reader
(the source file of the reader, `cpuacct.go`, is not among the provided
sources; §4.3 describes it as expecting "a header line plus one data
line per CPU core, each with user/system nanosecond columns", failing
"with a parse error on malformed row shape or non-numeric fields"). -/
def parseCPUAcctRow (line : String) : Except CgErr CPUUsage :=
  match goSplitOnSpace line with
  | [i, u, v] =>
    match parseUint64 i, parseUint64 u, parseUint64 v with
    | some ci, some cu, some cs => .ok ⟨ci, cu, cs⟩
    | _, _, _ => .error (.parseValueFailed line)
  | _ => .error (.parseLineFailed line)

/-- Modelled from the spec: the content-level CPU-accounting reader
(`cpuacct.go` missing from the sources; §4.3): a header line followed
by one row per CPU core, malformed rows being parse errors. -/
def newCPUAcctFromLines : List String → Except CgErr CPUAcct
  | [] => .error .scanFailed
  | _ :: rows =>
    match rows.mapM parseCPUAcctRow with
    | .error e => .error e
    | .ok cpus => .ok ⟨cpus⟩

/-- Modelled from the spec: `FS.NewCPUAcct` (`cpuacct.go` missing from
the sources; §4.3 and §6): resolves the `cpuacct.usage_all` file of
the `cpu` controller, fails with a "not found" condition when the file
cannot be read, and parses the rows. -/
def NewCPUAcct (env : Env) (fs : FS) (cgSubpath : String) : Except CgErr CPUAcct :=
  match fs.cgGetPath "cpu" cgSubpath "cpuacct.usage_all" with
  | .error e => .error e
  | .ok cgPath =>
    match env.readFile cgPath with
    | none => .error (.readFailed cgPath)
    | some b => newCPUAcctFromLines (goScanLines b)

/-- The polymorphic result of the usage facade (`TotalCPUUsage`): the
record of whichever reader ran. -/
inductive TotalCPUUsage where
  | stat (c : CPUStat)
  | acct (a : CPUAcct)
deriving DecidableEq

/-- Embedding of `NewCPUUsage`: builds the default filesystem handle,
picks the unified `cpu.stat` reader for the `Unified` and `Hybrid`
mount modes and the CPU-accounting reader otherwise, and returns a nil
record with the (possibly nil) reader error whenever the reader
produced no record. -/
def NewCPUUsage (env : Env) (controlGroupMode : ControlGroupMode) (pfx : String)
    (cgSubpath : String) : Except CgErr (Option TotalCPUUsage) :=
  match NewDefaultFS env controlGroupMode pfx with
  | .error e => .error e
  | .ok fs =>
    if fs.cgroupUnified = .MountModeUnified ∨ fs.cgroupUnified = .MountModeHybrid then
      match NewCPUStat env fs cgSubpath with
      | .error e => .error e
      | .ok none => .ok none
      | .ok (some c) => .ok (some (.stat c))
    else
      match NewCPUAcct env fs cgSubpath with
      | .error e => .error e
      | .ok a => .ok (some (.acct a))

/-! ## Specification-side definitions

These definitions follow the wording of the specification (§3, §4.1, §4.2)
rather than the source; the refinement theorems compare the embedded
code against them. -/

/-- The topology/roots invariant of the Hierarchy Handle, from the
wording of the spec (§3): `Legacy` has the legacy root set and the unified
root empty, `Unified` the converse, and `Hybrid` has both set. -/
def rootsInvariant (o : CgOut) : Prop :=
  (o.mode = .MountModeLegacy → o.legacyPath ≠ "" ∧ o.unifiedPath = "") ∧
  (o.mode = .MountModeUnified → o.unifiedPath ≠ "" ∧ o.legacyPath = "") ∧
  (o.mode = .MountModeHybrid → o.unifiedPath ≠ "" ∧ o.legacyPath ≠ "")

instance (o : CgOut) : Decidable (rootsInvariant o) := by
  unfold rootsInvariant; infer_instance

/-- The §4.1 decision table for `Auto` mode, from the wording of the spec:
given the probe and the three (already prefixed) mount points, the
resulting topology, unified root, legacy root, and whether an error is
reported.  Step numbering follows the spec: a failed probe of the
default root is an error; the cgroup-v2 magic there is `Unified`; the
tmpfs magic leads to probing the unified sibling (v2 magic there gives
the v233+ `Hybrid`) and then the systemd sibling (v2 magic the v232
`Hybrid`, v1 magic `Legacy`, anything else an error); any other magic
at the default root is an error. -/
def specAutoClassify (probe : String → Option Nat)
    (defaultRoot unifiedSibling systemdSibling : String) :
    MountMode × String × String × Bool :=
  let probeSystemd : MountMode × String × String × Bool :=
    match probe systemdSibling with
    | none => (.MountModeUnknown, "", "", true)
    | some ts =>
      if ts = cgroup2SuperMagic then (.MountModeHybrid, unifiedSibling, systemdSibling, false)
      else if ts = cgroupSuperMagic then (.MountModeLegacy, "", defaultRoot, false)
      else (.MountModeUnknown, "", "", true)
  match probe defaultRoot with
  | none => (.MountModeUnknown, "", "", true)
  | some t =>
    if t = cgroup2SuperMagic then (.MountModeUnified, defaultRoot, "", false)
    else if t = tmpFsMagic then
      match probe unifiedSibling with
      | some tu =>
        if tu = cgroup2SuperMagic then (.MountModeHybrid, unifiedSibling, defaultRoot, false)
        else probeSystemd
      | none => probeSystemd
    else (.MountModeUnknown, "", "", true)

/-- The §4.2 path-construction table, from the wording of the spec: `none`
when the topology is `Unknown`, otherwise the path of the table row
(`/` denoting filesystem path joining). -/
def resolveSpec (handle : FS) (controllerName subgroupPath fileName : String) : Option String :=
  match handle.cgroupUnified with
  | .MountModeUnknown => none
  | .MountModeLegacy => some (goJoin [handle.legacyPath, controllerName, subgroupPath, fileName])
  | .MountModeUnified => some (goJoin [handle.unifiedPath, subgroupPath, fileName])
  | .MountModeHybrid =>
    if controllerName = "cpu" then some (goJoin [handle.unifiedPath, subgroupPath, fileName])
    else some (goJoin [handle.legacyPath, controllerName, subgroupPath, fileName])

/-! ## Claim theorems -/

/-- Claim C1 (settled as a code bug): for the explicit `Unified` override
the classifier returns, without error, a handle with topology `Hybrid`,
`unifiedRoot` the (prefixed) default root and an *empty* `legacyRoot` —
violating the topology-roots invariant, which demands both roots set
for `Hybrid`.  (For every other mode and probe the invariant holds; the
unreachable `mode == Unified` branch of the source shows
`MountModeUnified` was the intended result here.) -/
theorem c1_unified_override_violates_invariant :
    ∀ (pfx : String) (statfsFn : String → Option Nat),
      cgUnifiedCached .Unified pfx statfsFn =
          ⟨.MountModeHybrid, prependMountPoint pfx DefaultMountPoint, "", none⟩ ∧
        (cgUnifiedCached .Unified pfx statfsFn).err = none ∧
        ¬ rootsInvariant (cgUnifiedCached .Unified pfx statfsFn) := by
  intro pfx statfsFn
  refine ⟨rfl, rfl, ?_⟩
  intro hinv
  have h := hinv.2.2 rfl
  exact h.2 rfl

/-- Claim C9: the classifier rejects the plain `Hybrid` override with an
unknown-mode error, topology `Unknown` and empty roots, for every
prefix and probe — even though `ControlGroupModeString` accepts the
string `"hybrid"` and returns the `Hybrid` mode value. -/
theorem c9_hybrid_override_rejected :
    (∀ (pfx : String) (statfsFn : String → Option Nat),
        cgUnifiedCached .Hybrid pfx statfsFn =
          ⟨.MountModeUnknown, "", "", some (.unknownMode .Hybrid)⟩) ∧
      ControlGroupModeString "hybrid" = .ok .Hybrid :=
  ⟨fun _ _ => rfl, by decide⟩

/-- Claim C3: for every handle and arguments, `cgGetPath` returns exactly
the path of the §4.2 table (`resolveSpec`), and fails with the
indeterminate-topology error exactly when the topology is `Unknown`. -/
theorem c3_resolve_matches_table (fs : FS) (controller subpath suffix : String) :
    (fs.cgGetPath controller subpath suffix).toOption
        = resolveSpec fs controller subpath suffix ∧
      (fs.cgroupUnified = .MountModeUnknown →
        fs.cgGetPath controller subpath suffix = .error .unknownHierarchy) := by
  constructor
  · cases h : fs.cgroupUnified <;>
      simp only [FS.cgGetPath, resolveSpec, h] <;>
      first
        | rfl
        | (split_ifs <;> rfl)
  · intro h
    simp only [FS.cgGetPath, h]

/-- Witness for `c3_resolve_matches_table` at a concrete
unknown-topology handle, discharging its hypothesis. -/
theorem c3_resolve_matches_table_witness :
    ((⟨.MountModeUnknown, "/u", "/l"⟩ : FS).cgGetPath "cpu" "/system.slice" "cpu.stat").toOption
        = resolveSpec ⟨.MountModeUnknown, "/u", "/l"⟩ "cpu" "/system.slice" "cpu.stat" ∧
      ((⟨.MountModeUnknown, "/u", "/l"⟩ : FS).cgroupUnified = .MountModeUnknown →
        (⟨.MountModeUnknown, "/u", "/l"⟩ : FS).cgGetPath "cpu" "/system.slice" "cpu.stat"
          = .error .unknownHierarchy) :=
  c3_resolve_matches_table ⟨.MountModeUnknown, "/u", "/l"⟩ "cpu" "/system.slice" "cpu.stat"

/-- Claim C4: with any explicit override (any requested mode other than
`Auto`) the classifier invokes no filesystem-type probe at all and its
result does not depend on the probe function. -/
theorem c4_override_never_probes :
    ∀ (mode : ControlGroupMode), mode ≠ .Auto →
      ∀ (pfx : String) (f g : String → Option Nat),
        statfsCalls mode pfx f = [] ∧
          cgUnifiedCached mode pfx f = cgUnifiedCached mode pfx g := by
  intro mode h pfx f g
  cases mode with
  | Auto => exact absurd rfl h
  | Legacy => exact ⟨rfl, rfl⟩
  | Hybrid => exact ⟨rfl, rfl⟩
  | UnifiedV232 => exact ⟨rfl, rfl⟩
  | Unified => exact ⟨rfl, rfl⟩

/-- Witness for `c4_override_never_probes` at the `Legacy` override and
two probes that would classify differently in `Auto` mode. -/
theorem c4_override_never_probes_witness :
    statfsCalls .Legacy "" (fun _ => some cgroup2SuperMagic) = [] ∧
      cgUnifiedCached .Legacy "" (fun _ => some cgroup2SuperMagic)
        = cgUnifiedCached .Legacy "" (fun _ => none) :=
  c4_override_never_probes .Legacy (by decide) "" _ _

/-- Claim C2: in `Auto` mode, for every prefix and probe function the
topology, roots and error presence returned by the classifier are exactly the
outcome of the §4.1 decision table (`specAutoClassify`) at the three
prefixed mount points; moreover the cgroup-v2 magic at the default
root is decided without probing either sibling. -/
theorem c2_auto_matches_decision_table :
    ∀ (pfx : String) (f : String → Option Nat),
      ((cgUnifiedCached .Auto pfx f).mode, (cgUnifiedCached .Auto pfx f).unifiedPath,
          (cgUnifiedCached .Auto pfx f).legacyPath, (cgUnifiedCached .Auto pfx f).err.isSome)
        = specAutoClassify f (prependMountPoint pfx DefaultMountPoint)
            (prependMountPoint pfx UnifiedMountPoint)
            (prependMountPoint pfx SystemdMountPoint) ∧
      (f (prependMountPoint pfx DefaultMountPoint) = some cgroup2SuperMagic →
        statfsCalls .Auto pfx f = [prependMountPoint pfx DefaultMountPoint]) := by
  intro pfx f
  have hA : ¬ (tmpFsMagic = cgroup2SuperMagic) := by decide
  have hB : ¬ (cgroupSuperMagic = cgroup2SuperMagic) := by decide
  constructor
  · simp only [cgUnifiedCached, cgUnifiedCachedT, specAutoClassify]
    cases h1 : f (prependMountPoint pfx DefaultMountPoint) with
    | none => simp [h1, hA, hB]
    | some t1 =>
      by_cases ht1 : t1 = cgroup2SuperMagic
      · simp [h1, ht1, hA, hB]
      · by_cases ht2 : t1 = tmpFsMagic
        · cases h2 : f (prependMountPoint pfx UnifiedMountPoint) with
          | none =>
            cases h3 : f (prependMountPoint pfx SystemdMountPoint) with
            | none => simp [h1, ht1, ht2, h2, h3, hA, hB]
            | some ts =>
              by_cases hts : ts = cgroup2SuperMagic
              · simp [h1, ht1, ht2, h2, h3, hts, hA, hB]
              · by_cases hts2 : ts = cgroupSuperMagic <;>
                  simp [h1, ht1, ht2, h2, h3, hts, hts2, hA, hB]
          | some tu =>
            by_cases htu : tu = cgroup2SuperMagic
            · simp [h1, ht1, ht2, h2, htu, hA, hB]
            · cases h3 : f (prependMountPoint pfx SystemdMountPoint) with
              | none => simp [h1, ht1, ht2, h2, h3, htu, hA, hB]
              | some ts =>
                by_cases hts : ts = cgroup2SuperMagic
                · simp [h1, ht1, ht2, h2, h3, htu, hts, hA, hB]
                · by_cases hts2 : ts = cgroupSuperMagic <;>
                    simp [h1, ht1, ht2, h2, h3, htu, hts, hts2, hA, hB]
        · simp [h1, ht1, ht2, hA, hB]
  · intro h
    simp [statfsCalls, cgUnifiedCachedT, h]

/-- Witness for `c2_auto_matches_decision_table` at a concrete probe
reporting the cgroup-v2 magic at the default root. -/
theorem c2_auto_matches_decision_table_witness :
    ((cgUnifiedCached .Auto "" (fun _ => some cgroup2SuperMagic)).mode,
        (cgUnifiedCached .Auto "" (fun _ => some cgroup2SuperMagic)).unifiedPath,
        (cgUnifiedCached .Auto "" (fun _ => some cgroup2SuperMagic)).legacyPath,
        (cgUnifiedCached .Auto "" (fun _ => some cgroup2SuperMagic)).err.isSome)
      = specAutoClassify (fun _ => some cgroup2SuperMagic) (prependMountPoint "" DefaultMountPoint)
          (prependMountPoint "" UnifiedMountPoint) (prependMountPoint "" SystemdMountPoint) ∧
      statfsCalls .Auto "" (fun _ => some cgroup2SuperMagic)
        = [prependMountPoint "" DefaultMountPoint] :=
  ⟨(c2_auto_matches_decision_table "" _).1, (c2_auto_matches_decision_table "" _).2 rfl⟩

/-- The scanning loop fails on any list containing a line that does
not split into two tokens with a valid unsigned 64-bit second token,
whatever the accumulator state. -/
theorem cpuStatLoop_error_of_malformed :
    ∀ (lines : List String) (user sys : Nat) (l : String),
      l ∈ lines → wellFormedLine l = false →
      ∃ e, cpuStatLoop lines user sys = .error e := by
  intro lines
  induction lines with
  | nil => intro _ _ l hl; exact absurd hl (List.not_mem_nil l)
  | cons x xs ih =>
    intro user sys l hl hw
    rcases List.mem_cons.mp hl with heq | hmem
    · subst heq
      unfold wellFormedLine at hw
      unfold cpuStatLoop
      cases hsp : goSplitOnSpace l with
      | nil => simp [hsp]
      | cons k rest =>
        cases rest with
        | nil => simp [hsp]
        | cons v rest2 =>
          cases rest2 with
          | nil =>
            rw [hsp] at hw
            simp only at hw
            cases hv : parseUint64 v with
            | none => simp [hsp, hv]
            | some n => rw [hv] at hw; simp at hw
          | cons w rest3 => simp [hsp]
    · unfold cpuStatLoop
      cases hsp : goSplitOnSpace x with
      | nil => simp [hsp]
      | cons k rest =>
        cases rest with
        | nil => simp [hsp]
        | cons v rest2 =>
          cases rest2 with
          | nil =>
            cases hv : parseUint64 v with
            | none => simp [hsp, hv]
            | some n =>
              simp only [hsp, hv]
              exact ih _ _ l hmem hw
          | cons w rest3 => simp [hsp]

/-- Claim C5 (amended): every line after the first that does not split
on a single space into exactly two tokens, or whose second token is
not a valid unsigned 64-bit decimal integer, causes the unified
`cpu.stat` reader to return a parse error.  (As originally stated —
over *every* line — the claim fails, because the first line is
discarded unparsed; see the counterexample.) -/
theorem c5_malformed_tail_line_errors :
    ∀ (s first : String) (rest : List String) (l : String),
      goScanLines s = first :: rest → l ∈ rest → wellFormedLine l = false →
      ∃ e, newCPUStatFromString s = .error e := by
  intro s first rest l hs hl hw
  obtain ⟨e, he⟩ := cpuStatLoop_error_of_malformed rest 0 0 l hl hw
  refine ⟨e, ?_⟩
  unfold newCPUStatFromString
  rw [hs]
  simp only [newCPUStatFromLines, he]

/-- Counterexample to **C5** as stated: the file
`"bad first line\nuser_usec 7"` contains a line (its first) that does
not split into exactly two space-separated tokens, yet the reader
returns a record, not a parse error. -/
theorem c5_counterexample :
    wellFormedLine "bad first line" = false ∧
      (goScanLines "bad first line\nuser_usec 7").head? = some "bad first line" ∧
      newCPUStatFromString "bad first line\nuser_usec 7" = .ok (some ⟨0, 7⟩) := by
  refine ⟨by decide, by decide, by decide⟩

/-- Witness for `c5_malformed_tail_line_errors` at a concrete file
whose second line has a non-numeric value. -/
theorem c5_malformed_tail_line_errors_witness :
    goScanLines "usage_usec 1\nuser_usec x" = ["usage_usec 1", "user_usec x"] ∧
      "user_usec x" ∈ ["user_usec x"] ∧
      wellFormedLine "user_usec x" = false ∧
      ∃ e, newCPUStatFromString "usage_usec 1\nuser_usec x" = .error e :=
  ⟨by decide, by decide, by decide,
    c5_malformed_tail_line_errors "usage_usec 1\nuser_usec x" "usage_usec 1" ["user_usec x"]
      "user_usec x" (by decide) (by decide) (by decide)⟩

/-- The scanning loop keeps both accumulators at zero when every line
is well-formed and every `user_usec`/`system_usec` line carries the
value 0. -/
theorem cpuStatLoop_zero :
    ∀ (lines : List String),
      (∀ l ∈ lines, wellFormedLine l = true) →
      (∀ l ∈ lines, ∀ k v, lineKeyVal l = some (k, v) →
        (k = "user_usec" ∨ k = "system_usec") → parseUint64 v = some 0) →
      cpuStatLoop lines 0 0 = .ok (0, 0) := by
  intro lines
  induction lines with
  | nil => intro _ _; rfl
  | cons x xs ih =>
    intro hwf hzero
    have hx := hwf x (List.mem_cons_self x xs)
    unfold wellFormedLine at hx
    unfold cpuStatLoop
    cases hsp : goSplitOnSpace x with
    | nil => rw [hsp] at hx; simp at hx
    | cons k rest =>
      cases rest with
      | nil => rw [hsp] at hx; simp at hx
      | cons v rest2 =>
        cases rest2 with
        | cons w rest3 => rw [hsp] at hx; simp at hx
        | nil =>
          rw [hsp] at hx
          simp only [Option.isSome_iff_exists] at hx
          obtain ⟨n, hn⟩ := hx
          simp only [hsp, hn]
          have hkv : lineKeyVal x = some (k, v) := by
            unfold lineKeyVal
            rw [hsp]
          have hzx : (k = "user_usec" ∨ k = "system_usec") → n = 0 := by
            intro hk
            have := hzero x (List.mem_cons_self x xs) k v hkv hk
            rw [hn] at this
            exact Option.some_inj.mp this
          have hu : (if k = "user_usec" then n else 0) = 0 := by
            by_cases hk : k = "user_usec"
            · simp [hk, hzx (Or.inl hk)]
            · simp [hk]
          have hv : (if k = "system_usec" then n else 0) = 0 := by
            by_cases hk : k = "system_usec"
            · simp [hk, hzx (Or.inr hk)]
            · simp [hk]
          rw [hu, hv]
          exact ih (fun l hl => hwf l (List.mem_cons_of_mem x hl))
            (fun l hl => hzero l (List.mem_cons_of_mem x hl))

/-- Claim C6: a `cpu.stat` file whose lines after the first are
well-formed and in which every `user_usec` and `system_usec` entry (if
any) carries the value 0 — covering both the both-present-with-zero
file and the neither-key-observed file — yields the no-data result
`ok none`, which is neither an error nor a zero-valued record. -/
theorem c6_zero_or_absent_keys_yield_no_data :
    ∀ (s first : String) (rest : List String),
      goScanLines s = first :: rest →
      (∀ l ∈ rest, wellFormedLine l = true) →
      (∀ l ∈ rest, ∀ k v, lineKeyVal l = some (k, v) →
        (k = "user_usec" ∨ k = "system_usec") → parseUint64 v = some 0) →
      newCPUStatFromString s = .ok none ∧
        (∀ e, newCPUStatFromString s ≠ .error e) ∧
        newCPUStatFromString s ≠ .ok (some ⟨0, 0⟩) := by
  intro s first rest hs hwf hzero
  have hmain : newCPUStatFromString s = .ok none := by
    unfold newCPUStatFromString
    rw [hs]
    simp only [newCPUStatFromLines, cpuStatLoop_zero rest hwf hzero]
    simp
  refine ⟨hmain, ?_, ?_⟩
  · intro e
    rw [hmain]
    simp
  · rw [hmain]
    simp

/-- Witness for `c6_zero_or_absent_keys_yield_no_data` at the concrete
file with both keys present with value 0. -/
theorem c6_zero_or_absent_keys_yield_no_data_witness :
    newCPUStatFromString "usage_usec 99\nuser_usec 0\nsystem_usec 0" = .ok none ∧
      (∀ e, newCPUStatFromString "usage_usec 99\nuser_usec 0\nsystem_usec 0" ≠ .error e) ∧
      newCPUStatFromString "usage_usec 99\nuser_usec 0\nsystem_usec 0" ≠ .ok (some ⟨0, 0⟩) :=
  c6_zero_or_absent_keys_yield_no_data "usage_usec 99\nuser_usec 0\nsystem_usec 0"
    "usage_usec 99" ["user_usec 0", "system_usec 0"] (by decide)
    (by decide)
    (by
      intro l hl k v hkv hk
      simp only [List.mem_cons, List.not_mem_nil, or_false] at hl
      rcases hl with rfl | rfl
      · rw [show lineKeyVal "user_usec 0" = some ("user_usec", "0") from by decide] at hkv
        injection hkv with h
        injection h with h1 h2
        subst h1
        subst h2
        decide
      · rw [show lineKeyVal "system_usec 0" = some ("system_usec", "0") from by decide] at hkv
        injection hkv with h
        injection h with h1 h2
        subst h1
        subst h2
        decide)

/-- Claim C10: the reader consumes and discards the first line before
parsing — two files whose line streams differ only in the first line
parse identically — while a wholly empty file yields the scan error. -/
theorem c10_first_line_discarded :
    (∀ (s₁ s₂ a b : String) (rest : List String),
        goScanLines s₁ = a :: rest → goScanLines s₂ = b :: rest →
        newCPUStatFromString s₁ = newCPUStatFromString s₂) ∧
      newCPUStatFromString "" = .error .scanFailed := by
  constructor
  · intro s₁ s₂ a b rest h1 h2
    unfold newCPUStatFromString
    rw [h1, h2]
    simp only [newCPUStatFromLines]
  · rfl

/-- Witness for `c10_first_line_discarded`: a malformed first line and
a well-formed one with a `user_usec` entry give the same result. -/
theorem c10_first_line_discarded_witness :
    newCPUStatFromString "user_usec 999 zzz\nuser_usec 3"
      = newCPUStatFromString "usage_usec 5\nuser_usec 3" :=
  c10_first_line_discarded.1 "user_usec 999 zzz\nuser_usec 3" "usage_usec 5\nuser_usec 3"
    "user_usec 999 zzz" "usage_usec 5" ["user_usec 3"] (by decide) (by decide)

/-- Claim C7: whenever the default handle is built successfully, the
usage facade runs the unified `cpu.stat` reader for the `Unified` and
`Hybrid` topologies and the CPU-accounting reader for every other
topology, and a no-data answer of the chosen reader becomes a nil
record without an error. -/
theorem c7_facade_selects_reader :
    ∀ (env : Env) (mode : ControlGroupMode) (pfx sub : String) (fs : FS),
      NewDefaultFS env mode pfx = .ok fs →
      (NewCPUUsage env mode pfx sub =
        (if fs.cgroupUnified = .MountModeUnified ∨ fs.cgroupUnified = .MountModeHybrid then
          match NewCPUStat env fs sub with
          | .error e => .error e
          | .ok none => .ok none
          | .ok (some c) => .ok (some (.stat c))
        else
          match NewCPUAcct env fs sub with
          | .error e => .error e
          | .ok a => .ok (some (.acct a)))) ∧
      ((fs.cgroupUnified = .MountModeUnified ∨ fs.cgroupUnified = .MountModeHybrid) →
        NewCPUStat env fs sub = .ok none →
        NewCPUUsage env mode pfx sub = .ok none) := by
  intro env mode pfx sub fs h
  have hmain :
      NewCPUUsage env mode pfx sub =
        (if fs.cgroupUnified = .MountModeUnified ∨ fs.cgroupUnified = .MountModeHybrid then
          match NewCPUStat env fs sub with
          | .error e => .error e
          | .ok none => .ok none
          | .ok (some c) => .ok (some (.stat c))
        else
          match NewCPUAcct env fs sub with
          | .error e => .error e
          | .ok a => .ok (some (.acct a))) := by
    unfold NewCPUUsage
    rw [h]
  refine ⟨hmain, ?_⟩
  intro hsel hnone
  rw [hmain]
  simp [hsel, hnone]

/-- Witness for `c7_facade_selects_reader` at a concrete environment
in which the `Legacy` override succeeds (every path stats as a
directory) and the accounting file is absent. -/
theorem c7_facade_selects_reader_witness :
    NewDefaultFS ⟨fun _ => none, fun _ => some true, fun _ => none⟩ .Legacy "" =
        .ok ⟨.MountModeLegacy, "", "/sys/fs/cgroup"⟩ ∧
      NewCPUUsage ⟨fun _ => none, fun _ => some true, fun _ => none⟩ .Legacy "" "/sys" =
        (if (⟨.MountModeLegacy, "", "/sys/fs/cgroup"⟩ : FS).cgroupUnified = .MountModeUnified ∨
            (⟨.MountModeLegacy, "", "/sys/fs/cgroup"⟩ : FS).cgroupUnified = .MountModeHybrid then
          match NewCPUStat ⟨fun _ => none, fun _ => some true, fun _ => none⟩
              ⟨.MountModeLegacy, "", "/sys/fs/cgroup"⟩ "/sys" with
          | .error e => .error e
          | .ok none => .ok none
          | .ok (some c) => .ok (some (.stat c))
        else
          match NewCPUAcct ⟨fun _ => none, fun _ => some true, fun _ => none⟩
              ⟨.MountModeLegacy, "", "/sys/fs/cgroup"⟩ "/sys" with
          | .error e => .error e
          | .ok a => .ok (some (.acct a))) :=
  ⟨by decide,
    (c7_facade_selects_reader ⟨fun _ => none, fun _ => some true, fun _ => none⟩ .Legacy ""
      "/sys" ⟨.MountModeLegacy, "", "/sys/fs/cgroup"⟩ (by decide)).1⟩

/-- Lowercasing never produces an uppercase ASCII letter. -/
theorem goCharToLower_not_upper (c : Char) :
    ¬(65 ≤ (goCharToLower c).toNat ∧ (goCharToLower c).toNat ≤ 90) := by
  unfold goCharToLower
  split_ifs with h
  · obtain ⟨h1, h2⟩ := h
    have hm1 : 97 ≤ c.toNat + 32 := by omega
    have hm2 : c.toNat + 32 ≤ 122 := by omega
    generalize hg : c.toNat + 32 = m at hm1 hm2 ⊢
    interval_cases m <;> decide
  · exact h

/-- The lowercased form of a string never equals a string containing
an uppercase ASCII letter. -/
theorem goToLower_ne_of_upper_mem (s t : String)
    (hc : ∃ c ∈ t.data, 65 ≤ c.toNat ∧ c.toNat ≤ 90) : goToLower s ≠ t := by
  intro h
  obtain ⟨c, hmem, hup⟩ := hc
  rw [← h] at hmem
  have hdata : (goToLower s).data = s.data.map goCharToLower := rfl
  rw [hdata] at hmem
  obtain ⟨c₀, _, rfl⟩ := List.mem_map.mp hmem
  exact goCharToLower_not_upper c₀ hup

/-- Claim C8: the function `ControlGroupModeString` is exactly the case-insensitive
five-way table: it succeeds precisely when the lowercase form of its
argument is one of `auto`, `legacy`, `hybrid`, `unifiedv232`,
`unified` (returning the corresponding mode) and errors on every other
string. -/
theorem c8_mode_string_case_insensitive (s : String) :
    ControlGroupModeString s =
      (if goToLower s = "auto" then .ok .Auto
       else if goToLower s = "legacy" then .ok .Legacy
       else if goToLower s = "hybrid" then .ok .Hybrid
       else if goToLower s = "unifiedv232" then .ok .UnifiedV232
       else if goToLower s = "unified" then .ok .Unified
       else .error (s ++ " does not belong to ControlGroupMode values")) := by
  by_cases e1 : s = "Auto"
  · subst e1; decide
  by_cases e2 : s = "auto"
  · subst e2; decide
  by_cases e3 : s = "Legacy"
  · subst e3; decide
  by_cases e4 : s = "legacy"
  · subst e4; decide
  by_cases e5 : s = "Hybrid"
  · subst e5; decide
  by_cases e6 : s = "hybrid"
  · subst e6; decide
  by_cases e7 : s = "UnifiedV232"
  · subst e7; decide
  by_cases e8 : s = "unifiedv232"
  · subst e8; decide
  by_cases e9 : s = "Unified"
  · subst e9; decide
  by_cases e10 : s = "unified"
  · subst e10; decide
  have u1 : goToLower s ≠ "Auto" :=
    goToLower_ne_of_upper_mem s "Auto" ⟨'A', by decide, by decide⟩
  have u2 : goToLower s ≠ "Legacy" :=
    goToLower_ne_of_upper_mem s "Legacy" ⟨'L', by decide, by decide⟩
  have u3 : goToLower s ≠ "Hybrid" :=
    goToLower_ne_of_upper_mem s "Hybrid" ⟨'H', by decide, by decide⟩
  have u4 : goToLower s ≠ "UnifiedV232" :=
    goToLower_ne_of_upper_mem s "UnifiedV232" ⟨'U', by decide, by decide⟩
  have u5 : goToLower s ≠ "Unified" :=
    goToLower_ne_of_upper_mem s "Unified" ⟨'U', by decide, by decide⟩
  have b : ∀ (t k : String), ¬ t = k → (t == k) = false := fun t k h =>
    beq_eq_false_iff_ne.mpr h
  unfold ControlGroupModeString _ControlGroupModeNameToValueMap
  simp only [List.lookup, b s "Auto" e1, b s "auto" e2, b s "Legacy" e3, b s "legacy" e4,
    b s "Hybrid" e5, b s "hybrid" e6, b s "UnifiedV232" e7, b s "unifiedv232" e8,
    b s "Unified" e9, b s "unified" e10, b (goToLower s) "Auto" u1, b (goToLower s) "Legacy" u2,
    b (goToLower s) "Hybrid" u3, b (goToLower s) "UnifiedV232" u4, b (goToLower s) "Unified" u5]
  by_cases g1 : goToLower s = "auto"
  · simp [beq_iff_eq, g1]
  by_cases g2 : goToLower s = "legacy"
  · simp [b _ _ g1, beq_iff_eq, g2, g1]
  by_cases g3 : goToLower s = "hybrid"
  · simp [b _ _ g1, b _ _ g2, beq_iff_eq, g3, g1, g2]
  by_cases g4 : goToLower s = "unifiedv232"
  · simp [b _ _ g1, b _ _ g2, b _ _ g3, beq_iff_eq, g4, g1, g2, g3]
  by_cases g5 : goToLower s = "unified"
  · simp [b _ _ g1, b _ _ g2, b _ _ g3, b _ _ g4, beq_iff_eq, g5, g1, g2, g3, g4]
  simp [b _ _ g1, b _ _ g2, b _ _ g3, b _ _ g4, b _ _ g5, g1, g2, g3, g4, g5]

end SystemdExporter
